import Mathlib

/-!
Shallow embedding of `tfatool/command.py` (FlashAir command.cgi client) and
proofs about its response-decoding and listing logic.

Conventions of the embedding:
* Python `str` values are Lean `String`s; character-level processing is done
  on `String.data` (`List Char`) with structural recursion so that concrete
  evaluations reduce in the kernel.  `int()` is modelled for ASCII input.
* Python machine-independent integers are `Int`; Python `a & mask` on an
  arbitrary integer with a small non-negative mask is modelled two's-complement
  style via `a.emod 65536` (all masks used by the source fit in 16 bits), and
  Python `a >> k` is floor division `Int.fdiv a (2 ^ k)`.
* Fallible Python code (functions that can raise) returns `Except PyErr _`,
  where `PyErr` distinguishes `ValueError` from `IOError` (the two kinds the
  source raises or catches).
* The third-party `arrow.get(year, month, day, hour, minute, second, ...)`
  constructor validates its fields exactly like `datetime.datetime`; it is
  embedded as `arrow_get`, returning `none` where the library would raise
  `ValueError`, and recording whether a local timezone was attached.
* Generators are embedded as the list of values a consumer draining them
  would see, paired with the error (if any) that would then be raised:
  `List α × Option PyErr`.
-/

deriving instance DecidableEq for Except

/-- Error kinds raised by the embedded code: Python `ValueError` or `IOError`. -/
inductive PyErr where
  | valueError (msg : String)
  | ioError (msg : String)
deriving DecidableEq

/-! ### Python `int()` on ASCII text -/

/-- Characters stripped by Python `int()` before parsing (ASCII whitespace). -/
def isPyWS (c : Char) : Bool :=
  c = ' ' || c = '\t' || c = '\n' || c = '\r' || c = '\x0b' || c = '\x0c'

/-- Drop leading ASCII whitespace. -/
def dropWS : List Char → List Char
  | [] => []
  | c :: rest => if isPyWS c then dropWS rest else c :: rest

/-- Strip ASCII whitespace from both ends. -/
def stripWS (cs : List Char) : List Char :=
  ((dropWS ((dropWS cs).reverse)).reverse)

/-- After an initial digit: digits, with single underscores between digits
(Python numeric-literal rule). -/
def intTail : List Char → Bool
  | [] => true
  | '_' :: rest =>
    match rest with
    | [] => false
    | c :: rest => c.isDigit && intTail rest
  | c :: rest => c.isDigit && intTail rest

/-- Valid unsigned body of a Python integer literal: nonempty, starts with a
digit, then digits with single underscores between digits. -/
def intBodyOk : List Char → Bool
  | [] => false
  | c :: rest => c.isDigit && intTail rest

/-- Numeric value of the digits of a body (underscores skipped). -/
def digitsVal (cs : List Char) : Nat :=
  (cs.filter Char.isDigit).foldl (fun acc c => 10 * acc + (c.toNat - 48)) 0

/-- Python `int(s)` on a character list: strip whitespace, optional sign,
then a valid digit body; `none` models a raised `ValueError`. -/
def pythonIntChars (cs : List Char) : Option Int :=
  match stripWS cs with
  | '+' :: rest => if intBodyOk rest then some (digitsVal rest) else none
  | '-' :: rest => if intBodyOk rest then some (-(digitsVal rest : Int)) else none
  | rest => if intBodyOk rest then some (digitsVal rest) else none

/-- Python `int(s)` on a string. -/
def pythonInt (s : String) : Option Int :=
  pythonIntChars s.data

/-! ### Splitting on CRLF and commas (Python `str.split` with a separator) -/

/-- Python `text.split("\r\n")`. -/
def splitCRLF : List Char → List (List Char)
  | [] => [[]]
  | '\r' :: '\n' :: rest => [] :: splitCRLF rest
  | c :: rest =>
    match splitCRLF rest with
    | [] => [[c]]
    | l :: ls => (c :: l) :: ls

/-- Python `line.split(",")`. -/
def splitComma : List Char → List (List Char)
  | [] => [[]]
  | ',' :: rest => [] :: splitComma rest
  | c :: rest =>
    match splitComma rest with
    | [] => [[c]]
    | l :: ls => (c :: l) :: ls

/-! ### `pathlib.PurePosixPath` (two-argument join and `str`) -/

/-- Python `s.startswith('/')`. -/
def startsWithSlash (s : String) : Bool :=
  match s.data with
  | c :: _ => c = '/'
  | [] => false

/-- Python `line.split("/")` used for path parsing. -/
def splitSlash : List Char → List (List Char)
  | [] => [[]]
  | '/' :: rest => [] :: splitSlash rest
  | c :: rest =>
    match splitSlash rest with
    | [] => [[c]]
    | l :: ls => (c :: l) :: ls

/-- Count of leading slashes. -/
def leadingSlashes : List Char → Nat
  | '/' :: rest => leadingSlashes rest + 1
  | _ => 0

/-- POSIX root of a path string: 0 = relative, 1 = "/", 2 = "//" (exactly two
leading slashes are preserved per POSIX; three or more collapse to one). -/
def posixRoot (cs : List Char) : Nat :=
  match leadingSlashes cs with
  | 0 => 0
  | 1 => 1
  | 2 => 2
  | _ + 3 => 1

/-- Path components after normalization: empty components and `.` dropped. -/
def posixParts (cs : List Char) : List String :=
  ((splitSlash cs).filter (fun p => p ≠ [] && p ≠ ['.'])).map (fun p => ⟨p⟩)

/-- Parsed form of a POSIX path: root marker and normalized components. -/
def posixParse (s : String) : Nat × List String :=
  (posixRoot s.data, posixParts s.data)

/-- Join components with `/`. -/
def joinParts : List String → String
  | [] => ""
  | [p] => p
  | p :: rest => p ++ "/" ++ joinParts rest

/-- Render a parsed POSIX path as `str(PurePosixPath(...))` would. -/
def posixStr (root : Nat) (parts : List String) : String :=
  match root, parts with
  | 0, [] => "."
  | 0, ps => joinParts ps
  | 1, ps => "/" ++ joinParts ps
  | _, ps => "//" ++ joinParts ps

/-- Python `str(PurePosixPath(a, b))`: if `b` is absolute it discards `a`,
otherwise components are concatenated under `a`'s root. -/
def posix_path_join (a b : String) : String :=
  match posixParse a, posixParse b with
  | (ra, pa), (rb, pb) => if rb ≠ 0 then posixStr rb pb else posixStr ra (pa ++ pb)

/-- Normalized rendering of a single path string, `str(PurePosixPath(s))`. -/
def posixNormalize (s : String) : String :=
  match posixParse s with
  | (r, p) => posixStr r p

/-! ### Datetime model (`arrow.get` on integer fields) -/

/-- Timezone attached to a constructed timestamp: `tzinfo="local"` on the
primary decoding path, the `arrow` default (UTC) on the clamped fallback. -/
inductive Tzinfo where
  | localTz
  | utcTz
deriving DecidableEq

/-- A constructed timestamp. -/
structure DateTime where
  year : Int
  month : Nat
  day : Nat
  hour : Int
  minute : Nat
  second : Nat
  tz : Tzinfo
deriving DecidableEq

/-- Gregorian leap-year test (as `calendar.isleap`). -/
def isLeapYear (y : Int) : Bool :=
  y % 4 = 0 && (y % 100 ≠ 0 || y % 400 = 0)

/-- Days in a month of a given year. -/
def daysInMonth (y : Int) (m : Nat) : Nat :=
  if m = 2 then (if isLeapYear y then 29 else 28)
  else if m = 4 || m = 6 || m = 9 || m = 11 then 30
  else 31

/-- Field validity enforced by `datetime.datetime` (hence by `arrow.get`). -/
def validYMDHMS (y : Int) (m d : Nat) (h : Int) (mi s : Nat) : Bool :=
  1 ≤ y && y ≤ 9999 && 1 ≤ m && m ≤ 12 && 1 ≤ d && d ≤ daysInMonth y m &&
  0 ≤ h && h ≤ 23 && mi ≤ 59 && s ≤ 59

/-- Embedding of `arrow.get(year, month, day, hour, minute, second, ...)`:
`none` where the library raises `ValueError` on out-of-range fields. -/
def arrow_get (y : Int) (m d : Nat) (h : Int) (mi s : Nat) (tz : Tzinfo) :
    Option DateTime :=
  if validYMDHMS y m d h mi s then some ⟨y, m, d, h, mi, s, tz⟩ else none

/-! ### FAT date/time field extraction (`_decode_time`) -/

/-- Python `a & mask` for a small non-negative mask (two's complement on the
low 16 bits; every mask used by the source is below `2 ^ 9`). -/
def pyAnd (a : Int) (m : Nat) : Nat :=
  (a % 65536).toNat &&& m

/-- Year field: `(date_val >> 9) + 1980`. -/
def dt_year (dateVal : Int) : Int := dateVal.fdiv 512 + 1980

/-- Month field: `(date_val & (0b1111 << 5)) >> 5`. -/
def dt_month (dateVal : Int) : Nat := pyAnd dateVal 480 / 32

/-- Day field: `date_val & 0b11111`. -/
def dt_day (dateVal : Int) : Nat := pyAnd dateVal 31

/-- Hour field: `time_val >> 11`. -/
def tm_hour (timeVal : Int) : Int := timeVal.fdiv 2048

/-- Minute field: `(time_val >> 5) & 0b111111`. -/
def tm_minute (timeVal : Int) : Nat := pyAnd (timeVal.fdiv 32) 63

/-- Second field: `(time_val & 0b11111) * 2`. -/
def tm_second (timeVal : Int) : Nat := pyAnd timeVal 31 * 2

/-- Embedding of `_decode_time`: primary timezone-aware construction, and on
`ValueError` a retry with year clamped to at least 1980, month into `[1, 12]`,
day to at least 1 — hour, minute and second are not clamped, so the retry can
itself fail, which the source does not catch (the `ValueError` propagates). -/
def _decode_time (dateVal timeVal : Int) : Except PyErr DateTime :=
  match arrow_get (dt_year dateVal) (dt_month dateVal) (dt_day dateVal)
      (tm_hour timeVal) (tm_minute timeVal) (tm_second timeVal) .localTz with
  | some d => .ok d
  | none =>
    match arrow_get (max 1980 (dt_year dateVal)) (min (max 1 (dt_month dateVal)) 12)
        (max 1 (dt_day dateVal)) (tm_hour timeVal) (tm_minute timeVal)
        (tm_second timeVal) .utcTz with
    | some d => .ok d
    | none => .error (.valueError "time data out of range")

/-! ### Attribute decoding (`_decode_attribute`) -/

/-- The six FAT attribute flags, most-significant bit first. -/
structure AttrInfo where
  archive : Bool
  directly : Bool
  volume : Bool
  system_file : Bool
  hidden_file : Bool
  read_only : Bool
deriving DecidableEq

/-- Embedding of `_decode_attribute`: `bool(attr_val & (1 << bit))` for
`bit` in `reversed(range(6))`, filling the fields in declaration order. -/
def _decode_attribute (attrVal : Int) : AttrInfo :=
  ⟨pyAnd attrVal 32 ≠ 0, pyAnd attrVal 16 ≠ 0, pyAnd attrVal 8 ≠ 0,
   pyAnd attrVal 4 ≠ 0, pyAnd attrVal 2 ≠ 0, pyAnd attrVal 1 ≠ 0⟩

/-! ### File records -/

/-- Decoded file-listing entry (`FileInfo` from the domain model, in the field
order the source constructs it). -/
structure FileInfo where
  directory : String
  filename : String
  path : String
  size : Int
  «attribute» : AttrInfo
  datetime : DateTime
deriving DecidableEq

/-- Raw file-listing entry (`RawFileInfo`). -/
structure RawFileInfo where
  directory : String
  filename : String
  path : String
  size : Int
deriving DecidableEq

/-! ### Line decoding (`_split_file_list`, `_split_file_list_raw`) -/

/-- Python `int(cs)` as an `Except`, raising `ValueError` on bad input. -/
def pyIntE (cs : List Char) : Except PyErr Int :=
  match pythonIntChars cs with
  | some v => .ok v
  | none => .error (.valueError ("invalid literal for int with base 10: " ++ (⟨cs⟩ : String)))

/-- One iteration of the `_split_file_list` loop body on a line: `none` when
the line does not split into exactly six comma-separated groups (silently
skipped), otherwise the yielded record or the raised error.  The four integer
conversions happen in field order (size, attribute, date, time) before the
date/time decode, exactly as the tuple unpacking of the source forces them. -/
def processLine (line : List Char) : Option (Except PyErr FileInfo) :=
  match splitComma line with
  | [dir, fn, szS, attrS, dateS, timeS] =>
    some (
      match pyIntE szS with
      | .error e => .error e
      | .ok size =>
        match pyIntE attrS with
        | .error e => .error e
        | .ok attrV =>
          match pyIntE dateS with
          | .error e => .error e
          | .ok dateV =>
            match pyIntE timeS with
            | .error e => .error e
            | .ok timeV =>
              match _decode_time dateV timeV with
              | .error e => .error e
              | .ok timeinfo =>
                .ok ⟨⟨dir⟩, ⟨fn⟩, posix_path_join ⟨dir⟩ ⟨fn⟩, size,
                     _decode_attribute attrV, timeinfo⟩)
  | _ => none

/-- One iteration of the `_split_file_list_raw` loop body on a line: only the
size field is converted to an integer. -/
def processLineRaw (line : List Char) : Option (Except PyErr RawFileInfo) :=
  match splitComma line with
  | [dir, fn, szS, _, _, _] =>
    some (
      match pyIntE szS with
      | .error e => .error e
      | .ok size => .ok ⟨⟨dir⟩, ⟨fn⟩, posix_path_join ⟨dir⟩ ⟨fn⟩, size⟩)
  | _ => none

/-- Drain a generator of per-line outcomes: skipped lines contribute nothing,
yielded values accumulate until the first raised error stops consumption. -/
def collectGen {α : Type} : List (Option (Except PyErr α)) → List α × Option PyErr
  | [] => ([], none)
  | none :: rest => collectGen rest
  | some (.error e) :: _ => ([], some e)
  | some (.ok a) :: rest =>
    match collectGen rest with
    | (as, e) => (a :: as, e)

/-- Embedding of `_split_file_list(text)` as drained by a consumer: the list
of yielded `FileInfo`s and the error (if any) raised afterwards. -/
def _split_file_list (text : String) : List FileInfo × Option PyErr :=
  collectGen ((splitCRLF text.data).map processLine)

/-- Embedding of `_split_file_list_raw(text)`. -/
def _split_file_list_raw (text : String) : List RawFileInfo × Option PyErr :=
  collectGen ((splitCRLF text.data).map processLineRaw)

/-- The successfully yielded value of a per-line outcome, if any. -/
def okValue {α : Type} : Except PyErr α → Option α
  | .ok a => some a
  | .error _ => none

/-! ### Listing operations -/

/-- Conjunction of all filter predicates (`all(filt(f) for filt in filters)`). -/
def passesFilters (filters : List (FileInfo → Bool)) (f : FileInfo) : Bool :=
  filters.all (fun filt => filt f)

/-- Conjunction of all filter predicates over raw records. -/
def passesFiltersRaw (filters : List (RawFileInfo → Bool)) (f : RawFileInfo) : Bool :=
  filters.all (fun filt => filt f)

/-- Embedding of `list_files(*filters, ...)` applied to the response text of
the single listing request it issues: directories excluded via the
`directly` attribute flag, then the filter conjunction. -/
def list_files (filters : List (FileInfo → Bool)) (text : String) :
    List FileInfo × Option PyErr :=
  match _split_file_list text with
  | (fs, e) => (fs.filter (fun f => !f.attribute.directly && passesFilters filters f), e)

/-- Embedding of `list_files_raw(*filters, ...)`: same filter logic, but no
directory exclusion. -/
def list_files_raw (filters : List (RawFileInfo → Bool)) (text : String) :
    List RawFileInfo × Option PyErr :=
  match _split_file_list_raw text with
  | (fs, e) => (fs.filter (passesFiltersRaw filters), e)

/-- Python dict built by `{f.filename: f for f in files}`, modelled as its
lookup function: later entries overwrite earlier ones under the same key. -/
def pyDict (ys : List FileInfo) : String → Option FileInfo :=
  ys.foldl (fun d f => fun k => if k = f.filename then some f else d k) (fun _ => none)

/-- Embedding of `map_files(*filters, ...)`: drain `list_files` into a dict
keyed by filename; an error raised while draining propagates. -/
def map_files (filters : List (FileInfo → Bool)) (text : String) :
    Except PyErr (String → Option FileInfo) :=
  match list_files filters text with
  | (ys, none) => .ok (pyDict ys)
  | (_, some e) => .error e

/-! ### Recursive listing (`list_files_recursive`) -/

/-- Prepend a leading slash when absent. -/
def normalizeLead (s : String) : String :=
  if startsWithSlash s then s else "/" ++ s

/-- The file-entry normalization of `list_files_recursive`: when the
`directory` field is non-empty (Python truthiness) and lacks a leading slash,
a fresh record is built with slash-prefixed `directory` and `path`. -/
def lfrFile (f : FileInfo) : FileInfo :=
  if f.directory ≠ "" && !startsWithSlash f.directory then
    ⟨"/" ++ f.directory, f.filename,
     (if startsWithSlash f.path then f.path else "/" ++ f.path),
     f.size, f.attribute, f.datetime⟩
  else f

/-- Process the entries of one directory listing in order: directory entries
contribute their slash-normalized `path` to the scan queue, file entries are
normalized, filtered and yielded. -/
def lfrProcessEntries (filters : List (FileInfo → Bool)) :
    List FileInfo → List String × List FileInfo
  | [] => ([], [])
  | f :: rest =>
    match lfrProcessEntries filters rest with
    | (ds, fs) =>
      if f.attribute.directly then (normalizeLead f.path :: ds, fs)
      else
        let f' := lfrFile f
        if passesFilters filters f' then (ds, f' :: fs) else (ds, fs)

/-- One dequeued directory of `list_files_recursive`: the subdirectories
enqueued, the files yielded, and the error (if any) the listing raised. -/
def lfrStepDir (filters : List (FileInfo → Bool)) (text : String) :
    List String × List FileInfo × Option PyErr :=
  match _split_file_list text with
  | (entries, e) =>
    match lfrProcessEntries filters entries with
    | (ds, fs) => (ds, fs, e)

/-- The `while dirs_to_scan` loop of `list_files_recursive`, one request per
dequeued directory (`device` maps a directory to its response text).  Fuel
bounds how many directories the consumer drains; the trace records, per
request in order, the directory requested and the files yielded from it. -/
def lfrRun (device : String → String) (filters : List (FileInfo → Bool)) :
    Nat → List String → List (String × List FileInfo) × Option PyErr
  | _, [] => ([], none)
  | 0, _ :: _ => ([], none)
  | fuel + 1, d :: rest =>
    match lfrStepDir filters (device d) with
    | (_, fs, some e) => ([(d, fs)], some e)
    | (ds, fs, none) =>
      ((d, fs) :: (lfrRun device filters fuel (rest ++ ds)).1,
       (lfrRun device filters fuel (rest ++ ds)).2)

/-- Embedding of `list_files_recursive(*filters, remote_dir=..., ...)`: the
starting directory is slash-normalized and seeds the work queue. -/
def list_files_recursive (device : String → String)
    (filters : List (FileInfo → Bool)) (remoteDir : String) (fuel : Nat) :
    List (String × List FileInfo) × Option PyErr :=
  lfrRun device filters fuel [normalizeLead remoteDir]

/-! ### Scalar status operations -/

/-- Embedding of `memory_changed` applied to the response text: `int(text) == 1`,
re-signalling a parse failure as an `IOError` with a no-connection hint. -/
def memory_changed (text : String) : Except PyErr Bool :=
  match pythonInt text with
  | some n => .ok (n == 1)
  | none => .error (.ioError "Likely no FlashAir connection, memory changed CGI command failed")

/-- Modelled from the spec: the `WifiMode` / `WifiModeOnBoot` enumerations live
in `tfatool/info.py`, which is not part of the sources; per the spec they are
enumerations of integer mode codes whose values are globally unique across the
combined set.  A member is a named integer code. -/
structure ModeMember where
  name : String
  value : Int
deriving DecidableEq

/-- Embedding of `get_wifi_mode` applied to the response text, parameterized by
the two enumerations: parse the text as an integer, scan
`list(WifiMode) + list(WifiModeOnBoot)` in order for a member with that value,
and raise `ValueError` when none matches (or when parsing fails). -/
def get_wifi_mode (wifiModes wifiModesOnBoot : List ModeMember) (text : String) :
    Except PyErr ModeMember :=
  match pythonInt text with
  | none => .error (.valueError ("invalid literal for int with base 10: " ++ text))
  | some v =>
    match (wifiModes ++ wifiModesOnBoot).find? (fun m => m.value = v) with
    | some m => .ok m
    | none => .error (.valueError "Uknown mode")

/-! ### Derived views of line decoding used by the theorems -/

/-- A six-group line whose processing raises (a numeric field fails to parse,
or the packed date/time fails to decode even after clamping). -/
def processLineIsBad (line : List Char) : Bool :=
  match processLine line with
  | some (.error _) => true
  | _ => false

/-- The record a line yields, when it yields one. -/
def processLineOk (line : List Char) : Option FileInfo :=
  match processLine line with
  | some (.ok f) => some f
  | _ => none

/-- Raw variant of `processLineIsBad`. -/
def processLineRawIsBad (line : List Char) : Bool :=
  match processLineRaw line with
  | some (.error _) => true
  | _ => false

/-- Raw variant of `processLineOk`. -/
def processLineRawOk (line : List Char) : Option RawFileInfo :=
  match processLineRaw line with
  | some (.ok f) => some f
  | _ => none

/-- All records decoded from the well-formed six-field lines of a response. -/
def decodedWellFormed (text : String) : List FileInfo :=
  (splitCRLF text.data).filterMap processLineOk

/-- Raw variant of `decodedWellFormed`. -/
def decodedWellFormedRaw (text : String) : List RawFileInfo :=
  (splitCRLF text.data).filterMap processLineRawOk

/-- A device whose every listing holds one file entry with an empty
`directory` field. -/
def deviceEmptyDir : String → String := fun _ => ",F,1,32,33,0"

/-- A two-level demonstration device: the root holds one file and one
subdirectory, which holds one file. -/
def demoDevice : String → String := fun dir =>
  if dir = "/" then "/,SUB,0,16,33,0\r\n/,A.JPG,10,32,33,0"
  else "/SUB,B.JPG,20,32,33,0"

/-! ### Arithmetic helper lemmas -/

theorem pyAnd_ofNat (a : Nat) (h : a < 65536) (m : Nat) : pyAnd (a : Int) m = a &&& m := by
  unfold pyAnd
  have h2 : ((a : Int) % 65536).toNat = a := by omega
  rw [h2]

theorem and_31_eq_mod (a : Nat) : a &&& 31 = a % 32 := by
  have := Nat.and_pow_two_sub_one_eq_mod a 5
  norm_num at this
  exact this

theorem and_63_eq_mod (a : Nat) : a &&& 63 = a % 64 := by
  have := Nat.and_pow_two_sub_one_eq_mod a 6
  norm_num at this
  exact this

theorem and_480_div_32 (a : Nat) : (a &&& 480) / 32 = a / 32 % 16 := by
  have h1 : (a &&& 480) / 32 = (a &&& 480) >>> 5 := by
    rw [Nat.shiftRight_eq_div_pow]
  have h2 : a / 32 % 16 = (a >>> 5) &&& 15 := by
    rw [Nat.shiftRight_eq_div_pow]
    have := Nat.and_pow_two_sub_one_eq_mod (a / 2 ^ 5) 4
    norm_num at this ⊢
    omega
  rw [h1, h2]
  apply Nat.eq_of_testBit_eq
  intro i
  have h480 : (480 : Nat) = 15 <<< 5 := by decide
  rw [h480]
  simp only [Nat.testBit_shiftRight, Nat.testBit_and, Nat.testBit_shiftLeft]
  have h5 : 5 + i ≥ 5 := by omega
  simp [h5]

theorem fdiv_cast_512 (a : Nat) : Int.fdiv (a : Int) 512 = ((a / 512 : Nat) : Int) := by
  rw [Int.ofNat_fdiv]
  rfl

theorem fdiv_cast_2048 (a : Nat) : Int.fdiv (a : Int) 2048 = ((a / 2048 : Nat) : Int) := by
  rw [Int.ofNat_fdiv]
  rfl

theorem fdiv_cast_32 (a : Nat) : Int.fdiv (a : Int) 32 = ((a / 32 : Nat) : Int) := by
  rw [Int.ofNat_fdiv]
  rfl

/-! ### Claim C5: FAT bit layout of `_decode_time` -/

/-- C5: `_decode_time` extracts fields by the FAT bit layout — date bits
`[15:9]` are years since 1980, `[8:5]` the month, `[4:0]` the day; time bits
`[15:11]` the hour, `[10:5]` the minute, `[4:0]` seconds divided by two
(doubled on decode) — and date code 33 (`0b0000000_0001_00001`) with time
code 0 decodes to the local-timezone timestamp 1980-01-01 00:00:00. -/
theorem c5_fat_bit_layout :
    (∀ dv : Nat, dv < 2 ^ 16 →
      dt_year (dv : Int) = ((dv / 2 ^ 9 : Nat) : Int) + 1980 ∧
      dt_month (dv : Int) = dv / 2 ^ 5 % 2 ^ 4 ∧
      dt_day (dv : Int) = dv % 2 ^ 5) ∧
    (∀ tv : Nat, tv < 2 ^ 16 →
      tm_hour (tv : Int) = ((tv / 2 ^ 11 : Nat) : Int) ∧
      tm_minute (tv : Int) = tv / 2 ^ 5 % 2 ^ 6 ∧
      tm_second (tv : Int) = tv % 2 ^ 5 * 2) ∧
    _decode_time 33 0 = .ok ⟨1980, 1, 1, 0, 0, 0, .localTz⟩ := by
  refine ⟨fun dv hdv => ⟨?_, ?_, ?_⟩, fun tv htv => ⟨?_, ?_, ?_⟩, by decide⟩
  · rw [dt_year, fdiv_cast_512]
    norm_num
  · rw [dt_month, pyAnd_ofNat dv (by omega), and_480_div_32]
    norm_num
  · rw [dt_day, pyAnd_ofNat dv (by omega), and_31_eq_mod]
    norm_num
  · rw [tm_hour, fdiv_cast_2048]
    norm_num
  · rw [tm_minute, fdiv_cast_32, pyAnd_ofNat (tv / 32) (by omega), and_63_eq_mod]
    norm_num
  · rw [tm_second, pyAnd_ofNat tv (by omega), and_31_eq_mod]
    norm_num

/-- Witness for C5 at date code 33 and time code 0. -/
theorem c5_witness :
    dt_year ((33 : Nat) : Int) = ((33 / 2 ^ 9 : Nat) : Int) + 1980 ∧
    dt_month ((33 : Nat) : Int) = 33 / 2 ^ 5 % 2 ^ 4 ∧
    dt_day ((33 : Nat) : Int) = 33 % 2 ^ 5 :=
  c5_fat_bit_layout.1 33 (by norm_num)

/-! ### Claim C6: attribute decoding -/

/-- C6: for every 6-bit attribute value, `_decode_attribute` expands it into
six booleans most-significant bit first, in the field order `archive`,
`directly`, `volume`, `system_file`, `hidden_file`, `read_only`; value
`0b100000` yields only `archive`, value `0b000001` only `read_only`. -/
theorem c6_decode_attribute :
    (∀ v : Nat, v < 64 →
      _decode_attribute (v : Int) =
        ⟨v.testBit 5, v.testBit 4, v.testBit 3, v.testBit 2, v.testBit 1, v.testBit 0⟩) ∧
    _decode_attribute 32 = ⟨true, false, false, false, false, false⟩ ∧
    _decode_attribute 1 = ⟨false, false, false, false, false, true⟩ := by
  exact ⟨by decide, by decide, by decide⟩

/-- Witness for C6 at the archive bit. -/
theorem c6_witness :
    _decode_attribute ((32 : Nat) : Int) =
      ⟨Nat.testBit 32 5, Nat.testBit 32 4, Nat.testBit 32 3,
       Nat.testBit 32 2, Nat.testBit 32 1, Nat.testBit 32 0⟩ :=
  c6_decode_attribute.1 32 (by norm_num)

/-! ### Claim C2: `memory_changed` -/

/-- C2: `memory_changed` returns true on response text `"1"`, false on any
text parsing to an integer other than 1, and fails with an `IOError` carrying
a no-connection hint exactly when the text is not integer-parseable. -/
theorem c2_memory_changed :
    memory_changed "1" = .ok true ∧
    (∀ t : String, ∀ k : Int, pythonInt t = some k → k ≠ 1 →
      memory_changed t = .ok false) ∧
    (∀ t : String, pythonInt t = none ↔
      memory_changed t =
        .error (.ioError "Likely no FlashAir connection, memory changed CGI command failed")) := by
  refine ⟨by decide, ?_, ?_⟩
  · intro t k hk hne
    simp [memory_changed, hk, hne]
  · intro t
    cases h : pythonInt t <;> simp [memory_changed, h]

/-- Witness for C2: `"0"` parses to 0 so the result is false, and non-numeric
text fails with the `IOError`. -/
theorem c2_witness :
    memory_changed "0" = .ok false ∧
    memory_changed "DUMMY" =
      .error (.ioError "Likely no FlashAir connection, memory changed CGI command failed") :=
  ⟨c2_memory_changed.2.1 "0" 0 (by decide) (by decide),
   (c2_memory_changed.2.2 "DUMMY").mp (by decide)⟩

/-! ### Claim C1: totality of `_decode_time` (corrected) -/

/-- C1 counterexample: decoding can raise after all.  Time code 49152 encodes
hour 24, which the primary construction rejects and the fallback does not
clamp; date code 605 encodes 1981-02-29, whose day survives clamping but still
exceeds the length of the month.  In both cases the `ValueError` propagates. -/
theorem c1_counterexample :
    _decode_time 33 49152 = .error (.valueError "time data out of range") ∧
    _decode_time 605 0 = .error (.valueError "time data out of range") := by
  exact ⟨by decide, by decide⟩

/-- C1 (amended): for 16-bit date/time codes whose time fields are themselves
in range (hour at most 23, minute at most 59, doubled seconds at most 59) and
whose clamped day fits the clamped month, `_decode_time` never raises: whenever
the primary timezone-aware construction fails, the fallback clamps year to at
least 1980, month into `[1, 12]`, day to at least 1, and returns the clamped
timestamp instead of propagating an error. -/
theorem c1_decode_time_clamped_total (dv tv : Nat) (hdv : dv < 2 ^ 16) (_htv : tv < 2 ^ 16)
    (hh : tm_hour (tv : Int) ≤ 23) (hmi : tm_minute (tv : Int) ≤ 59)
    (hs : tm_second (tv : Int) ≤ 59)
    (hd : max 1 (dt_day (dv : Int)) ≤
      daysInMonth (dt_year (dv : Int)) (min (max 1 (dt_month (dv : Int))) 12)) :
    (∃ d, _decode_time (dv : Int) (tv : Int) = .ok d) ∧
    (arrow_get (dt_year (dv : Int)) (dt_month (dv : Int)) (dt_day (dv : Int))
        (tm_hour (tv : Int)) (tm_minute (tv : Int)) (tm_second (tv : Int)) .localTz = none →
      _decode_time (dv : Int) (tv : Int) =
        .ok ⟨max 1980 (dt_year (dv : Int)), min (max 1 (dt_month (dv : Int))) 12,
             max 1 (dt_day (dv : Int)), tm_hour (tv : Int), tm_minute (tv : Int),
             tm_second (tv : Int), .utcTz⟩) := by
  have hy0 : (1980 : Int) ≤ dt_year (dv : Int) := by
    rw [dt_year]
    have := Int.fdiv_nonneg (a := (dv : Int)) (b := 512) (by positivity) (by norm_num)
    omega
  have hy1 : dt_year (dv : Int) ≤ 9999 := by
    rw [dt_year, fdiv_cast_512]
    have : dv / 512 ≤ 127 := by omega
    omega
  have hmax1980 : max 1980 (dt_year (dv : Int)) = dt_year (dv : Int) := max_eq_right hy0
  have hh0 : (0 : Int) ≤ tm_hour (tv : Int) := by
    rw [tm_hour]
    exact Int.fdiv_nonneg (by positivity) (by norm_num)
  have hfall : arrow_get (max 1980 (dt_year (dv : Int))) (min (max 1 (dt_month (dv : Int))) 12)
      (max 1 (dt_day (dv : Int))) (tm_hour (tv : Int)) (tm_minute (tv : Int))
      (tm_second (tv : Int)) .utcTz =
      some ⟨max 1980 (dt_year (dv : Int)), min (max 1 (dt_month (dv : Int))) 12,
            max 1 (dt_day (dv : Int)), tm_hour (tv : Int), tm_minute (tv : Int),
            tm_second (tv : Int), .utcTz⟩ := by
    rw [arrow_get, if_pos]
    rw [validYMDHMS, hmax1980]
    simp only [Bool.and_eq_true, decide_eq_true_eq]
    refine ⟨⟨⟨⟨⟨⟨⟨⟨⟨by omega, by omega⟩, by omega⟩, by omega⟩, by omega⟩, hd⟩, hh0⟩, hh⟩, hmi⟩, hs⟩
  constructor
  · cases hp : arrow_get (dt_year (dv : Int)) (dt_month (dv : Int)) (dt_day (dv : Int))
        (tm_hour (tv : Int)) (tm_minute (tv : Int)) (tm_second (tv : Int)) .localTz with
    | some d =>
      refine ⟨d, ?_⟩
      rw [_decode_time, hp]
    | none =>
      exact ⟨⟨max 1980 (dt_year (dv : Int)), min (max 1 (dt_month (dv : Int))) 12,
              max 1 (dt_day (dv : Int)), tm_hour (tv : Int), tm_minute (tv : Int),
              tm_second (tv : Int), .utcTz⟩, by rw [_decode_time, hp, hfall]⟩
  · intro hnone
    rw [_decode_time, hnone, hfall]

/-- Witness for C1 at date code 417 (month 13, clamped to December) and time
code 0: decoding succeeds. -/
theorem c1_witness :
    ∃ d, _decode_time ((417 : Nat) : Int) ((0 : Nat) : Int) = .ok d :=
  (c1_decode_time_clamped_total 417 0 (by norm_num) (by norm_num) (by decide) (by decide)
    (by decide) (by decide)).1

/-! ### Claim C10: absolute filenames discard the directory in `path` (corrected) -/

/-- A string starting with a slash has a slash at the head of its data. -/
theorem startsWithSlash_data (s : String) (h : startsWithSlash s = true) :
    ∃ rest, s.data = '/' :: rest := by
  unfold startsWithSlash at h
  rcases hd : s.data with _ | ⟨c, rest⟩ <;> rw [hd] at h
  · simp at h
  · simp only [decide_eq_true_eq] at h
    exact ⟨rest, by rw [h]⟩

/-- A path beginning with a slash parses to a non-relative root. -/
theorem posixRoot_pos (cs : List Char) (rest : List Char) (h : cs = '/' :: rest) :
    posixRoot cs ≠ 0 := by
  subst h
  unfold posixRoot
  have hl : leadingSlashes ('/' :: rest) = leadingSlashes rest + 1 := rfl
  rw [hl]
  rcases leadingSlashes rest with _ | _ | n <;> simp

/-- C10 counterexample: the decoded `path` is not always equal to the
filename alone — for filename `"/A//B.JPG"` the POSIX join normalizes the
duplicate slash away, yielding path `"/A/B.JPG"` even though the directory
component is indeed discarded. -/
theorem c10_counterexample :
    processLine "/DCIM,/A//B.JPG,1,32,33,0".data =
      some (.ok ⟨"/DCIM", "/A//B.JPG", "/A/B.JPG", 1,
        ⟨true, false, false, false, false, false⟩, ⟨1980, 1, 1, 0, 0, 0, .localTz⟩⟩) ∧
    startsWithSlash "/A//B.JPG" = true ∧ ("/A/B.JPG" : String) ≠ "/A//B.JPG" := by
  exact ⟨by decide, by decide, by decide⟩

/-- C10 (amended): for every listing entry whose filename begins with a path
separator, the computed `path` equals the POSIX normalization of the filename
alone — the join discards the directory component entirely (the result does
not depend on the directory), though redundant slashes and `.` components of
the filename are normalized away rather than kept verbatim. -/
theorem c10_absolute_filename_discards_directory (dir fn : String)
    (h : startsWithSlash fn = true) :
    posix_path_join dir fn = posixNormalize fn := by
  obtain ⟨rest, hd⟩ := startsWithSlash_data fn h
  have hroot := posixRoot_pos fn.data rest hd
  unfold posix_path_join posixNormalize posixParse
  simp [hroot]

/-- Witness for C10 on the counterexample's filename. -/
theorem c10_witness :
    posix_path_join "/DCIM" "/A//B.JPG" = posixNormalize "/A//B.JPG" :=
  c10_absolute_filename_discards_directory "/DCIM" "/A//B.JPG" (by decide)

/-! ### Line-decoding helper lemmas -/

/-- A line is silently skipped exactly when its comma split does not have six
groups. -/
theorem processLine_eq_none_iff (line : List Char) :
    processLine line = none ↔ (splitComma line).length ≠ 6 := by
  unfold processLine
  rcases h : splitComma line with _ | ⟨a, _ | ⟨b, _ | ⟨c, _ | ⟨d, _ | ⟨e, _ | ⟨f, _ | ⟨g, rest⟩⟩⟩⟩⟩⟩⟩ <;>
    simp

/-- Raw lines are skipped under the same condition. -/
theorem processLineRaw_eq_none_iff (line : List Char) :
    processLineRaw line = none ↔ (splitComma line).length ≠ 6 := by
  unfold processLineRaw
  rcases h : splitComma line with _ | ⟨a, _ | ⟨b, _ | ⟨c, _ | ⟨d, _ | ⟨e, _ | ⟨f, _ | ⟨g, rest⟩⟩⟩⟩⟩⟩⟩ <;>
    simp

/-- An erroring line makes the drained generator end in an error. -/
theorem collectGen_error {α : Type} (p : List Char → Option (Except PyErr α))
    (ls : List (List Char)) (h : ∃ l ∈ ls, ∃ e, p l = some (.error e)) :
    (collectGen (ls.map p)).2 ≠ none := by
  induction ls with
  | nil => simp at h
  | cons hd tl ih =>
    obtain ⟨l, hmem, e, hpe⟩ := h
    rcases List.mem_cons.mp hmem with hl | hl
    · subst hl
      rw [List.map_cons, hpe]
      simp [collectGen]
    · cases hph : p hd with
      | none =>
        rw [List.map_cons, hph]
        simpa [collectGen] using ih ⟨l, hl, e, hpe⟩
      | some r =>
        cases r with
        | error e2 =>
          rw [List.map_cons, hph]
          simp [collectGen]
        | ok a =>
          rw [List.map_cons, hph]
          have := ih ⟨l, hl, e, hpe⟩
          rcases hc : collectGen (tl.map p) with ⟨as, e3⟩
          rw [hc] at this
          simp [collectGen, hc]
          simpa using this

/-- When no line errors, draining yields exactly the ok values in order. -/
theorem collectGen_no_error {α : Type} (p : List Char → Option (Except PyErr α))
    (q : List Char → Option α)
    (hq : ∀ l, q l = (p l).bind okValue)
    (ls : List (List Char))
    (h : ∀ l ∈ ls, ∀ e, p l ≠ some (.error e)) :
    collectGen (ls.map p) = (ls.filterMap q, none) := by
  induction ls with
  | nil => rfl
  | cons hd tl ih =>
    have hhd := h hd (by simp)
    have htl : ∀ l ∈ tl, ∀ e, p l ≠ some (.error e) := fun l hl => h l (by simp [hl])
    cases hph : p hd with
    | none =>
      have hqh : q hd = none := by rw [hq hd, hph]; rfl
      rw [List.map_cons, hph, List.filterMap_cons, hqh]
      simpa [collectGen] using ih htl
    | some r =>
      cases r with
      | error e => exact absurd hph (hhd e)
      | ok a =>
        have hqh : q hd = some a := by rw [hq hd, hph]; rfl
        rw [List.map_cons, hph, List.filterMap_cons, hqh]
        simp [collectGen, ih htl]

/-- The yielded-record view agrees with the per-line outcome. -/
theorem processLineOk_spec (l : List Char) :
    processLineOk l = (processLine l).bind okValue := by
  unfold processLineOk
  rcases processLine l with _ | r
  · rfl
  · cases r <;> rfl

/-- Raw analogue of `processLineOk_spec`. -/
theorem processLineRawOk_spec (l : List Char) :
    processLineRawOk l = (processLineRaw l).bind okValue := by
  unfold processLineRawOk
  rcases processLineRaw l with _ | r
  · rfl
  · cases r <;> rfl

/-- On a response whose six-group lines are all well formed, the split yields
exactly the decoded records and raises nothing. -/
theorem split_file_list_no_error (text : String)
    (h : ∀ l ∈ splitCRLF text.data, processLineIsBad l = false) :
    _split_file_list text = (decodedWellFormed text, none) := by
  unfold _split_file_list decodedWellFormed
  have h2 : ∀ l ∈ splitCRLF text.data, ∀ e, processLine l ≠ some (.error e) := by
    intro l hl e hcontra
    have hb := h l hl
    rw [processLineIsBad, hcontra] at hb
    simp at hb
  exact collectGen_no_error processLine processLineOk processLineOk_spec _ h2

/-- Raw analogue of `split_file_list_no_error`. -/
theorem split_file_list_raw_no_error (text : String)
    (h : ∀ l ∈ splitCRLF text.data, processLineRawIsBad l = false) :
    _split_file_list_raw text = (decodedWellFormedRaw text, none) := by
  unfold _split_file_list_raw decodedWellFormedRaw
  have h2 : ∀ l ∈ splitCRLF text.data, ∀ e, processLineRaw l ≠ some (.error e) := by
    intro l hl e hcontra
    have hb := h l hl
    rw [processLineRawIsBad, hcontra] at hb
    simp at hb
  exact collectGen_no_error processLineRaw processLineRawOk processLineRawOk_spec _ h2

/-! ### Claim C9: six-group lines with bad numeric fields raise, not skip -/

/-- C9: a line splitting into exactly six groups whose size, attribute, date
or time field does not parse as an integer makes consumption raise a
`ValueError` (likewise `_split_file_list_raw` for a bad size field) rather
than being silently skipped; only lines with a group count other than six are
skipped, and such an erroring line makes draining `list_files` fail. -/
theorem c9_bad_numeric_field_raises :
    (∀ line dir fn szS attrS dateS timeS,
      splitComma line = [dir, fn, szS, attrS, dateS, timeS] →
      (pythonIntChars szS = none ∨ pythonIntChars attrS = none ∨
        pythonIntChars dateS = none ∨ pythonIntChars timeS = none) →
      ∃ m, processLine line = some (.error (.valueError m))) ∧
    (∀ line, processLine line = none ↔ (splitComma line).length ≠ 6) ∧
    (∀ line dir fn szS g4 g5 g6,
      splitComma line = [dir, fn, szS, g4, g5, g6] →
      pythonIntChars szS = none →
      ∃ m, processLineRaw line = some (.error (.valueError m))) ∧
    (∀ text filters, (∃ l ∈ splitCRLF text.data, ∃ e, processLine l = some (.error e)) →
      (list_files filters text).2 ≠ none) := by
  refine ⟨?_, processLine_eq_none_iff, ?_, ?_⟩
  · intro line dir fn szS attrS dateS timeS hsplit hbad
    unfold processLine
    rw [hsplit]
    rcases h1 : pythonIntChars szS with _ | v1
    · exact ⟨"invalid literal for int with base 10: " ++ (⟨szS⟩ : String),
        by simp [pyIntE, h1]⟩
    rcases h2 : pythonIntChars attrS with _ | v2
    · exact ⟨"invalid literal for int with base 10: " ++ (⟨attrS⟩ : String),
        by simp [pyIntE, h1, h2]⟩
    rcases h3 : pythonIntChars dateS with _ | v3
    · exact ⟨"invalid literal for int with base 10: " ++ (⟨dateS⟩ : String),
        by simp [pyIntE, h1, h2, h3]⟩
    rcases h4 : pythonIntChars timeS with _ | v4
    · exact ⟨"invalid literal for int with base 10: " ++ (⟨timeS⟩ : String),
        by simp [pyIntE, h1, h2, h3, h4]⟩
    rw [h1, h2, h3, h4] at hbad
    simp at hbad
  · intro line dir fn szS g4 g5 g6 hsplit h1
    unfold processLineRaw
    rw [hsplit]
    exact ⟨"invalid literal for int with base 10: " ++ (⟨szS⟩ : String),
      by simp [pyIntE, h1]⟩
  · intro text filters h
    unfold list_files
    rcases hc : _split_file_list text with ⟨fs, e⟩
    have := collectGen_error processLine (splitCRLF text.data) h
    rw [show collectGen ((splitCRLF text.data).map processLine) = _split_file_list text from rfl,
      hc] at this
    simpa using this

/-- Witness for C9 at a six-group line with non-numeric size field. -/
theorem c9_witness :
    ∃ m, processLine "/D,F,xx,32,33,0".data = some (.error (.valueError m)) :=
  c9_bad_numeric_field_raises.1 "/D,F,xx,32,33,0".data
    "/D".data "F".data "xx".data "32".data "33".data "0".data
    (by decide) (Or.inl (by decide))

/-! ### Claim C4: `list_files` yields exactly the filtered non-directory records -/

/-- C4: for every response text whose six-group lines are well formed and
every filter set, `list_files` yields exactly the decoded records of the
well-formed six-field lines whose attribute does not mark them as a directory
and which pass every filter (logical AND; the empty filter list passes
everything), lines not splitting into exactly six groups are silently
skipped, and `list_files_raw` applies the same filter logic without excluding
directory entries. -/
theorem c4_list_files_yield_filter (text : String)
    (filters : List (FileInfo → Bool)) (filtersRaw : List (RawFileInfo → Bool))
    (h : ∀ l ∈ splitCRLF text.data, processLineIsBad l = false)
    (hraw : ∀ l ∈ splitCRLF text.data, processLineRawIsBad l = false) :
    list_files filters text =
      ((decodedWellFormed text).filter
        (fun f => !f.attribute.directly && passesFilters filters f), none) ∧
    (∀ l, processLine l = none ↔ (splitComma l).length ≠ 6) ∧
    (∀ f, passesFilters [] f = true) ∧
    list_files_raw filtersRaw text =
      ((decodedWellFormedRaw text).filter (passesFiltersRaw filtersRaw), none) := by
  refine ⟨?_, processLine_eq_none_iff, fun f => rfl, ?_⟩
  · unfold list_files
    rw [split_file_list_no_error text h]
  · unfold list_files_raw
    rw [split_file_list_raw_no_error text hraw]

/-- Witness for C4 on a two-record listing followed by a malformed trailer. -/
theorem c4_witness :
    list_files [] "/DCIM,F.JPG,10,32,33,0\r\n/DCIM,SUB,0,16,33,0\r\nWLANSD_FILELIST" =
      ((decodedWellFormed "/DCIM,F.JPG,10,32,33,0\r\n/DCIM,SUB,0,16,33,0\r\nWLANSD_FILELIST").filter
        (fun f => !f.attribute.directly && passesFilters [] f), none) :=
  (c4_list_files_yield_filter
    "/DCIM,F.JPG,10,32,33,0\r\n/DCIM,SUB,0,16,33,0\r\nWLANSD_FILELIST" [] []
    (by decide) (by decide)).1

/-! ### Claim C8: `map_files` keys and last-entry-wins -/

/-- Appending one record to the drained list updates the dict at its filename
and leaves every other key unchanged. -/
theorem pyDict_snoc (ys : List FileInfo) (f : FileInfo) :
    pyDict (ys ++ [f]) = fun k => if k = f.filename then some f else pyDict ys k := by
  unfold pyDict
  rw [List.foldl_append]
  rfl

/-- Dict lookup returns the last drained record with the given filename. -/
theorem pyDict_lookup (ys : List FileInfo) (k : String) :
    pyDict ys k = ys.reverse.find? (fun f => f.filename == k) := by
  induction ys using List.reverseRecOn with
  | nil => rfl
  | append_singleton ys f ih =>
    rw [pyDict_snoc, List.reverse_append]
    simp only [List.reverse_cons, List.reverse_nil, List.nil_append, List.singleton_append,
      List.find?_cons]
    by_cases hk : f.filename = k
    · simp [hk]
    · have hk2 : k ≠ f.filename := fun hc => hk hc.symm
      have hb : (f.filename == k) = false := beq_eq_false_iff_ne.mpr hk
      simp [hk2, hb, ih]

/-- C8: when draining raises no error, `map_files` returns the dict built
from exactly the entries `list_files` yields: a key is present exactly when
it is the filename of some yielded entry, and the stored value is the entry
yielded last among those sharing that filename. -/
theorem c8_map_files (text : String) (filters : List (FileInfo → Bool)) (k : String)
    (h : (list_files filters text).2 = none) :
    map_files filters text = .ok (pyDict (list_files filters text).1) ∧
    pyDict (list_files filters text).1 k =
      (list_files filters text).1.reverse.find? (fun f => f.filename == k) ∧
    ((pyDict (list_files filters text).1 k).isSome ↔
      k ∈ (list_files filters text).1.map FileInfo.filename) := by
  refine ⟨?_, pyDict_lookup _ k, ?_⟩
  · unfold map_files
    rcases hl : list_files filters text with ⟨ys, e⟩
    rw [hl] at h
    simp at h
    subst h
    rfl
  · rw [pyDict_lookup]
    simp [List.find?_isSome, List.mem_reverse, List.mem_map]

/-- Witness for C8 on a listing with a duplicated filename. -/
theorem c8_witness :
    pyDict (list_files [] "/D,A.JPG,1,32,33,0\r\n/E,A.JPG,2,32,33,0").1 "A.JPG" =
      (list_files [] "/D,A.JPG,1,32,33,0\r\n/E,A.JPG,2,32,33,0").1.reverse.find?
        (fun f => f.filename == "A.JPG") :=
  (c8_map_files "/D,A.JPG,1,32,33,0\r\n/E,A.JPG,2,32,33,0" [] "A.JPG" (by decide)).2.1

/-! ### Claim C7: `get_wifi_mode` lookup over the combined enumerations -/

/-- Scanning a pairwise-distinct member list finds exactly the member with
the sought value. -/
theorem find_unique_mem {l : List ModeMember} {m : ModeMember} {v : Int}
    (huniq : l.Pairwise (fun a b => a.value ≠ b.value))
    (hm : m ∈ l) (hv : m.value = v) :
    l.find? (fun x => x.value = v) = some m := by
  induction l with
  | nil => simp at hm
  | cons a tl ih =>
    rcases List.pairwise_cons.mp huniq with ⟨ha, htl⟩
    rcases List.mem_cons.mp hm with hh | hh
    · subst hh
      simp [List.find?_cons, hv]
    · have hne : a.value ≠ v := by
        rw [← hv]
        exact ha m hh
      simp [List.find?_cons, hne, ih htl hh]

/-- C7: given that the response text parses as an integer and member values
are globally unique across the combined `WifiMode`/`WifiModeOnBoot` set (per
the spec invariant), `get_wifi_mode` returns the member whose value equals
the parsed integer, and fails with the invalid-value error exactly when no
member matches. -/
theorem c7_get_wifi_mode (wifiModes wifiModesOnBoot : List ModeMember) (t : String) (v : Int)
    (hp : pythonInt t = some v)
    (huniq : (wifiModes ++ wifiModesOnBoot).Pairwise (fun a b => a.value ≠ b.value)) :
    (∀ m ∈ wifiModes ++ wifiModesOnBoot, m.value = v →
      get_wifi_mode wifiModes wifiModesOnBoot t = .ok m) ∧
    ((∀ m ∈ wifiModes ++ wifiModesOnBoot, m.value ≠ v) ↔
      get_wifi_mode wifiModes wifiModesOnBoot t = .error (.valueError "Uknown mode")) := by
  constructor
  · intro m hm hv
    simp only [get_wifi_mode, hp]
    rw [find_unique_mem huniq hm hv]
  · simp only [get_wifi_mode, hp]
    constructor
    · intro hall
      have hnone : (wifiModes ++ wifiModesOnBoot).find? (fun x => x.value = v) = none := by
        apply List.find?_eq_none.mpr
        intro x hx
        simp [hall x hx]
      rw [hnone]
    · intro heq m hm hv
      rw [find_unique_mem huniq hm hv] at heq
      simp at heq

/-- Witness for C7 over two concrete enumerations. -/
theorem c7_witness :
    get_wifi_mode [⟨"AP", 2⟩, ⟨"STA", 3⟩] [⟨"AP_ON_BOOT", 4⟩] "3" = .ok ⟨"STA", 3⟩ :=
  (c7_get_wifi_mode [⟨"AP", 2⟩, ⟨"STA", 3⟩] [⟨"AP_ON_BOOT", 4⟩] "3" 3
    (by decide) (by decide)).1 ⟨"STA", 3⟩ (by decide) rfl

/-! ### Claim C3: recursive listing traversal (corrected) -/

/-- Processing a listing in order: directory entries contribute their
slash-normalized paths, file entries are normalized, filtered and yielded. -/
theorem lfrProcessEntries_spec (filters : List (FileInfo → Bool)) (entries : List FileInfo) :
    lfrProcessEntries filters entries =
      ((entries.filter (fun f => f.attribute.directly)).map (fun f => normalizeLead f.path),
       ((entries.filter (fun f => !f.attribute.directly)).map lfrFile).filter
         (passesFilters filters)) := by
  induction entries with
  | nil => rfl
  | cons f rest ih =>
    cases hd : f.attribute.directly with
    | true => simp [lfrProcessEntries, ih, hd, List.filter_cons]
    | false =>
      cases hp : passesFilters filters (lfrFile f) <;>
        simp [lfrProcessEntries, ih, hd, hp, List.filter_cons]

/-- The per-directory step raises exactly what the listing split raises. -/
theorem lfrStepDir_err (filters : List (FileInfo → Bool)) (t : String) :
    (lfrStepDir filters t).2.2 = (_split_file_list t).2 := by
  unfold lfrStepDir
  rcases _split_file_list t with ⟨entries, e⟩
  rcases lfrProcessEntries filters entries with ⟨ds, fs⟩
  rfl

/-- The per-directory step in terms of the decoded listing. -/
theorem lfrStepDir_spec (filters : List (FileInfo → Bool)) (t : String) :
    (lfrStepDir filters t).1 =
      ((_split_file_list t).1.filter (fun f => f.attribute.directly)).map
        (fun f => normalizeLead f.path) ∧
    (lfrStepDir filters t).2.1 =
      (((_split_file_list t).1.filter (fun f => !f.attribute.directly)).map
        lfrFile).filter (passesFilters filters) := by
  unfold lfrStepDir
  rcases _split_file_list t with ⟨entries, e⟩
  simp [lfrProcessEntries_spec]

/-- Prefixing a slash produces a slash-initial string. -/
theorem startsWithSlash_slash_append (s : String) : startsWithSlash ("/" ++ s) = true := rfl

/-- Prefixing a double slash produces a slash-initial string. -/
theorem startsWithSlash_dslash_append (s : String) : startsWithSlash ("//" ++ s) = true := rfl

/-- `normalizeLead` always yields a slash-initial string. -/
theorem normalizeLead_startsWith (s : String) : startsWithSlash (normalizeLead s) = true := by
  unfold normalizeLead
  cases h : startsWithSlash s
  · simp [h, startsWithSlash_slash_append]
  · simp [h]

/-- Rendering a non-relative parsed path yields a slash-initial string. -/
theorem posixStr_startsWith (root : Nat) (parts : List String) (h : root ≠ 0) :
    startsWithSlash (posixStr root parts) = true := by
  unfold posixStr
  rcases root with _ | _ | r
  · exact absurd rfl h
  · exact startsWithSlash_slash_append _
  · exact startsWithSlash_dslash_append _

/-- Joining under a slash-initial left argument yields a slash-initial path. -/
theorem posix_path_join_absolute_left (a b : String) (h : startsWithSlash a = true) :
    startsWithSlash (posix_path_join a b) = true := by
  obtain ⟨rest, hd⟩ := startsWithSlash_data a h
  have hroot := posixRoot_pos a.data rest hd
  unfold posix_path_join posixParse
  by_cases hb : posixRoot b.data = 0
  · simp [hb]
    exact posixStr_startsWith _ _ hroot
  · simp [hb]
    exact posixStr_startsWith _ _ hb

/-- A yielded file whose directory field is non-empty ends up with a
slash-initial directory. -/
theorem lfrFile_directory_normalized (f : FileInfo) (h : f.directory ≠ "") :
    startsWithSlash (lfrFile f).directory = true := by
  rw [lfrFile]
  cases hs : startsWithSlash f.directory
  · rw [if_pos (by simp [h, hs])]
    exact startsWithSlash_slash_append _
  · rw [if_neg (by simp [hs])]
    exact hs

/-- A yielded file whose directory field is non-empty ends up with a
slash-initial path (its path being the join the decoder computed). -/
theorem lfrFile_path_normalized (f : FileInfo) (h : f.directory ≠ "")
    (hp : f.path = posix_path_join f.directory f.filename) :
    startsWithSlash (lfrFile f).path = true := by
  rw [lfrFile]
  cases hs : startsWithSlash f.directory
  · rw [if_pos (by simp [h, hs])]
    cases hps : startsWithSlash f.path
    · exact startsWithSlash_slash_append _
    · exact hps
  · rw [if_neg (by simp [hs])]
    rw [hp]
    exact posix_path_join_absolute_left _ _ hs

/-- One loop iteration: dequeue the head, issue its one request, yield its
files, and continue with the tail followed by the newly discovered
subdirectories (FIFO). -/
theorem lfrRun_cons (device : String → String) (filters : List (FileInfo → Bool))
    (fuel : Nat) (d : String) (rest : List String) (ds : List String) (fs : List FileInfo)
    (hs : lfrStepDir filters (device d) = (ds, fs, none)) :
    lfrRun device filters (fuel + 1) (d :: rest) =
      ((d, fs) :: (lfrRun device filters fuel (rest ++ ds)).1,
       (lfrRun device filters fuel (rest ++ ds)).2) := by
  conv_lhs => rw [lfrRun, hs]

/-- C3 (amended): `list_files_recursive` performs a breadth-first traversal
with a FIFO queue dequeued from the front, issuing exactly one listing
request per directory dequeued, fully processing a parent listing before any
subdirectory is scanned (the subdirectories go to the back of the queue);
directory entries are enqueued by their slash-normalized path, and
non-directory entries passing all filters are yielded with `directory` and
`path` normalized to begin with a leading separator — provided the entry's
`directory` field is non-empty (an entry with an empty `directory` field is
yielded unchanged, per the counterexample); traversal starts from the
slash-normalized remote directory and stops on an empty queue. -/
theorem c3_recursive_bfs_normalized (device : String → String)
    (filters : List (FileInfo → Bool)) (fuel : Nat) (d : String) (rest : List String) :
    (∀ ds fs, lfrStepDir filters (device d) = (ds, fs, none) →
      lfrRun device filters (fuel + 1) (d :: rest) =
        ((d, fs) :: (lfrRun device filters fuel (rest ++ ds)).1,
         (lfrRun device filters fuel (rest ++ ds)).2)) ∧
    (lfrStepDir filters (device d)).1 =
      ((_split_file_list (device d)).1.filter (fun f => f.attribute.directly)).map
        (fun f => normalizeLead f.path) ∧
    (lfrStepDir filters (device d)).2.1 =
      (((_split_file_list (device d)).1.filter (fun f => !f.attribute.directly)).map
        lfrFile).filter (passesFilters filters) ∧
    (∀ s, startsWithSlash (normalizeLead s) = true) ∧
    (∀ f : FileInfo, f.directory ≠ "" → startsWithSlash (lfrFile f).directory = true) ∧
    (∀ f : FileInfo, f.directory ≠ "" → f.path = posix_path_join f.directory f.filename →
      startsWithSlash (lfrFile f).path = true) ∧
    (∀ rd fuel2, list_files_recursive device filters rd fuel2 =
      lfrRun device filters fuel2 [normalizeLead rd]) ∧
    lfrRun device filters fuel [] = ([], none) := by
  refine ⟨fun ds fs hs => lfrRun_cons device filters fuel d rest ds fs hs,
    (lfrStepDir_spec filters (device d)).1,
    (lfrStepDir_spec filters (device d)).2,
    normalizeLead_startsWith,
    lfrFile_directory_normalized,
    lfrFile_path_normalized,
    fun rd fuel2 => rfl, ?_⟩
  cases fuel <;> rfl

/-- C3 counterexample: an entry with an empty `directory` field is yielded
with `directory` and `path` not beginning with a leading separator. -/
theorem c3_counterexample :
    (lfrRun deviceEmptyDir [] 1 ["/"]).1 =
      [("/", [⟨"", "F", "F", 1, ⟨true, false, false, false, false, false⟩,
        ⟨1980, 1, 1, 0, 0, 0, .localTz⟩⟩])] ∧
    startsWithSlash "" = false ∧ startsWithSlash "F" = false := by
  exact ⟨by decide, by decide, by decide⟩

/-- Witness for C3: on the two-level demonstration device the root request
comes first, yields the root's file, and the subdirectory is scanned next. -/
theorem c3_witness :
    lfrRun demoDevice [] 2 ["/"] =
      (("/", [⟨"/", "A.JPG", "/A.JPG", 10, ⟨true, false, false, false, false, false⟩,
          ⟨1980, 1, 1, 0, 0, 0, .localTz⟩⟩]) ::
        (lfrRun demoDevice [] 1 ([] ++ ["/SUB"])).1,
       (lfrRun demoDevice [] 1 ([] ++ ["/SUB"])).2) :=
  (c3_recursive_bfs_normalized demoDevice [] 1 "/" []).1 ["/SUB"]
    [⟨"/", "A.JPG", "/A.JPG", 10, ⟨true, false, false, false, false, false⟩,
      ⟨1980, 1, 1, 0, 0, 0, .localTz⟩⟩] (by decide)
